import Mathlib

/-!
# cacidy: the change-triggered pipeline runner (`pkg/runner/runner.go`)

A shallow embedding of the runner package.  Go functions become Lean functions of the
same name.  Library and operating-system calls whose outcome the program cannot
determine (network listing, clone, key parsing, sub-process exit status, ...) are read
from a record `Sys`; the part of the machine state the program changes (the files it
creates and removes, the bolt database) is the explicit state `World`, which also keeps
a trace of the calls made.  A Go `error` is modelled by its message, `nil` by `none`.
-/

namespace runner

/-- A Go `error` value, represented by its message. -/
abbrev Error := String

deriving instance DecidableEq for Except

/-- The `Repository` struct. -/
structure Repository where
  URL : String
  Ref : String
  Username : String
  Password : String
  PrivateKeyFile : String
deriving DecidableEq, Repr

/-- The `Config` struct. -/
structure Config where
  Module : String
  Function : String
  Flags : List String
  WithSource : Bool
deriving DecidableEq, Repr

/-- The two implementations of `transport.AuthMethod` the package builds; the `nil`
interface value is `Option.none`.  A key signer is identified by the file it was
parsed from. -/
inductive AuthMethod where
  | PublicKeys (User : String) (pemFile : String)
  | BasicAuth (Username : String) (Password : String)
deriving DecidableEq, Repr

/-- The fields of `git.CloneOptions` that matter here.  `ReferenceName` is the field by
which a clone request names the branch to check out; a struct literal that does not
mention it leaves it at the zero value `""`, for which go-git checks out the remote
`HEAD`. -/
structure CloneOptions where
  Auth : Option AuthMethod
  URL : String
  ReferenceName : String
deriving DecidableEq, Repr

/-- A listed remote reference: `Name().String()` and the hexadecimal `Hash().String()`,
which has 40 characters. -/
structure Reference where
  name : String
  hash : String
deriving DecidableEq, Repr

/-- What is found at a path of the file system.
* `absent`: nothing exists at the path, and its parent directory exists;
* `noParent`: nothing exists at the path, and its parent directory is missing;
* `notDir`: a parent of the path is a regular file;
* `dir`: a directory;
* `emptyFile`: a regular file of length zero;
* `regular`: a non-empty regular file that is not a bolt database;
* `boltDb`: a bolt database, of which only the bucket `app` and its key `checksum` are
  recorded: `boltDb none` has no bucket, `boltDb (some none)` a bucket without the key,
  `boltDb (some (some v))` the key with value `v`. -/
inductive Node where
  | absent
  | noParent
  | notDir
  | dir
  | emptyFile
  | regular
  | boltDb (bucket : Option (Option String))
deriving DecidableEq, Repr

/-- The error numbers with which a path lookup fails. -/
inductive Errno where
  | ENOENT
  | ENOTDIR
deriving DecidableEq, Repr

/-- The text of an error number. -/
def Errno.message : Errno → String
  | Errno.ENOENT => "no such file or directory"
  | Errno.ENOTDIR => "not a directory"

/-- The calls recorded in the trace. -/
inductive Event where
  | gitAuth
  | mkdirTemp (dir : String)
  | clone (dir : String)
  | plainClone (dir : String) (o : CloneOptions)
  | newConfig (src : String)
  | runPipeline (source module function : String) (flags : List String)
  | removeAll (dir : String)
  | saveChecksum (dbFile checksum : String)
deriving DecidableEq, Repr

/-- Outcomes of the library and operating-system calls made during one poll cycle. -/
structure Sys where
  /-- The result of `os.Getenv`. -/
  getenv : String → String
  /-- The error of `ssh.NewPublicKeysFromFile` on a file, if it does not parse. -/
  keyParseError : String → Option Error
  /-- The result of `remote.List` for a URL under an auth method. -/
  remoteList : String → Option AuthMethod → Except Error (List Reference)
  /-- The fresh name `os.MkdirTemp` picks, or its error. -/
  tempDir : Except Error String
  /-- The error of `git.PlainClone`, if any. -/
  plainClone : String → CloneOptions → Option Error
  /-- The result of `filepath.Join` on two elements. -/
  filepathJoin : String → String → String
  /-- The result of `os.ReadFile`. -/
  readFile : String → Except Error String
  /-- The result of `yaml.Unmarshal` of file contents into a config value. -/
  yamlUnmarshal : String → Config → Except Error Config
  /-- The error of `cmd.Run` for an argument vector, if any. -/
  cmdRun : List String → Option Error
  /-- The error of `os.RemoveAll`, if any. -/
  removeAll : String → Option Error

/-- The state the program changes, and the trace of the calls it made. -/
structure World where
  fs : String → Node
  trace : List Event

/-- Append an event to the trace. -/
def World.log (w : World) (e : Event) : World :=
  { w with trace := w.trace ++ [e] }

/-- Put a node at a path. -/
def World.put (w : World) (path : String) (n : Node) : World :=
  { w with fs := Function.update w.fs path n }

/-- The error number with which looking up a path fails, `none` when something exists
at the path.  The empty path is never found. -/
def lookupErrno (w : World) (name : String) : Option Errno :=
  if name = "" then some Errno.ENOENT
  else
    match w.fs name with
    | Node.absent => some Errno.ENOENT
    | Node.noParent => some Errno.ENOENT
    | Node.notDir => some Errno.ENOTDIR
    | Node.dir => none
    | Node.emptyFile => none
    | Node.regular => none
    | Node.boltDb _ => none

/-- The error of `os.Stat`. -/
def osStat (w : World) (name : String) : Option Error :=
  match lookupErrno w name with
  | some errno => some ("stat " ++ name ++ ": " ++ errno.message)
  | none => none

/-- The test `os.IsNotExist(err)` on the error of `os.Stat(name)`: the call failed with
`ENOENT`. -/
def osStatIsNotExist (w : World) (name : String) : Bool :=
  match lookupErrno w name with
  | some Errno.ENOENT => true
  | some Errno.ENOTDIR => false
  | none => false

/-- The call `ssh.NewPublicKeysFromFile(user, pemFile, password)`. -/
def sshNewPublicKeysFromFile (sys : Sys) (user pemFile _password : String) :
    Except Error AuthMethod :=
  match sys.keyParseError pemFile with
  | some err => .error err
  | none => .ok (AuthMethod.PublicKeys user pemFile)

/-- The method `Runner.gitAuth`. -/
def gitAuth (sys : Sys) (r : Repository) (w : World) :
    Except Error (Option AuthMethod) × World :=
  let w := w.log Event.gitAuth
  let keyAuth : Except Error (Option AuthMethod) :=
    if r.PrivateKeyFile ≠ "" then
      match osStat w r.PrivateKeyFile with
      | some _ => .error "private key not found"
      | none =>
        match sshNewPublicKeysFromFile sys "git" r.PrivateKeyFile "" with
        | .error _ => .error "failed while parsing the private key"
        | .ok a => .ok (some a)
    else .ok none
  match keyAuth with
  | .error err => (.error err, w)
  | .ok auth =>
    if r.Password ≠ "" then
      (.ok (some (AuthMethod.BasicAuth r.Username r.Password)), w)
    else (.ok auth, w)

/-- The call `git.PlainClone(path, isBare, o)`. -/
def gitPlainClone (sys : Sys) (path : String) (_isBare : Bool) (o : CloneOptions)
    (w : World) : Option Error × World :=
  (sys.plainClone path o, w.log (Event.plainClone path o))

/-- The method `Runner.Clone`.  The options literal sets `Auth`, `URL` and `Progress`
only. -/
def Clone (sys : Sys) (r : Repository) (dir : String) (w : World) : Option Error × World :=
  let w := w.log (Event.clone dir)
  match osStat w r.PrivateKeyFile with
  | some err => (some err, w)
  | none =>
    match gitAuth sys r w with
    | (.error err, w) => (some err, w)
    | (.ok auth, w) =>
      match gitPlainClone sys dir false { Auth := auth, URL := r.URL, ReferenceName := "" } w with
      | (some err, w) => (some ("failed cloning the application: " ++ err), w)
      | (none, w) => (none, w)

/-- The loop over the listed references in `Runner.Checksum`. -/
def Checksum.scan (r : Repository) : List Reference → Except Error String
  | [] => .error "checksum not found"
  | ref :: refs =>
    if ref.name = "refs/heads/" ++ r.Ref then .ok (ref.hash.take 7)
    else Checksum.scan r refs

/-- The method `Runner.Checksum`. -/
def Checksum (sys : Sys) (r : Repository) (w : World) : Except Error String × World :=
  match gitAuth sys r w with
  | (.error err, w) => (.error err, w)
  | (.ok auth, w) =>
    match sys.remoteList r.URL auth with
    | .error err => (.error ("failed getting the application checksum: " ++ err), w)
    | .ok refs => (Checksum.scan r refs, w)

/-- The call `bolt.Open(path, 0600, nil)`, which opens the file with `O_CREATE`: it
creates an empty database where no file exists in an existing directory, initialises a
file of length zero as an empty database, opens an existing database, and fails on the
empty path, where the parent directory is missing or is not a directory, on a
directory, and on a non-empty file that is not a database.  The result is the state of
the bucket `app`. -/
def boltOpen (path : String) (w : World) : Except Error (Option (Option String)) × World :=
  if path = "" then (.error "open : no such file or directory", w)
  else
    match w.fs path with
    | Node.absent => (.ok none, w.put path (Node.boltDb none))
    | Node.noParent => (.error ("open " ++ path ++ ": no such file or directory"), w)
    | Node.notDir => (.error ("open " ++ path ++ ": not a directory"), w)
    | Node.dir => (.error ("open " ++ path ++ ": is a directory"), w)
    | Node.emptyFile => (.ok none, w.put path (Node.boltDb none))
    | Node.regular => (.error "invalid database", w)
    | Node.boltDb bucket => (.ok bucket, w)

/-- The closure passed to `db.View` in `LoadChecksum`: its error and the value it
leaves in the captured variable `checksum`. -/
def LoadChecksum.view (bucket : Option (Option String)) : Option Error × String :=
  match bucket with
  | none => (none, "")
  | some none => (some "state is empty", "")
  | some (some data) => (none, data)

/-- The method `Runner.LoadChecksum`.  Only a stat error that satisfies
`os.IsNotExist` returns early; after any other stat result the database is opened. -/
def LoadChecksum (dbFile : String) (w : World) : Except Error String × World :=
  if osStatIsNotExist w dbFile then (.ok "", w)
  else
    match boltOpen dbFile w with
    | (.error err, w) => (.error err, w)
    | (.ok bucket, w) =>
      match LoadChecksum.view bucket with
      | (some _, _) => (.ok "", w)
      | (none, checksum) => (.ok checksum, w)

/-- The method `Runner.SaveChecksum`.  `CreateBucketIfNotExists` and `Put` are given
non-empty names and do not fail. -/
def SaveChecksum (dbFile checksum : String) (w : World) : Option Error × World :=
  let w := w.log (Event.saveChecksum dbFile checksum)
  match boltOpen dbFile w with
  | (.error err, w) => (some err, w)
  | (.ok _, w) => (none, w.put dbFile (Node.boltDb (some (some checksum))))

/-- The `callCommand` struct. -/
structure callCommand where
  source : String
  module : String
  function : String
  flags : List String
deriving DecidableEq, Repr

/-- The method `callCommand.render`, statement by statement. -/
def callCommand.render (c : callCommand) (sys : Sys) : String :=
  let cmd := ["call"]
  let cmd := if c.module ≠ "" then cmd ++ ["-m", c.module] else cmd
  let cmd := if sys.getenv "CACIDY_DEBUG" ≠ "" then cmd ++ ["--debug"] else cmd
  let progress := sys.getenv "CACIDY_PROGRESS"
  let cmd := if progress ≠ "" then cmd ++ ["--progress", progress] else cmd
  let cmd := cmd ++ ["--source", c.source]
  let cmd := if c.flags.length > 0 then cmd ++ c.flags else cmd
  let cmd := if c.function ≠ "" then cmd ++ [c.function] else cmd
  " ".intercalate cmd

/-- The method `Runner.runPipeline`. -/
def runPipeline (sys : Sys) (source module function : String) (flags : List String)
    (w : World) : Option Error × World :=
  let c : callCommand := { source := source, module := module, function := function, flags := flags }
  (sys.cmdRun ["/bin/sh", "-c", "dagger " ++ c.render sys],
    w.log (Event.runPipeline source module function flags))

/-- The zero value `Config{}`. -/
def Config.zero : Config := { Module := "", Function := "", Flags := [], WithSource := false }

/-- The method `Config.Load`: the receiver after the call, or the error. -/
def Config.Load (sys : Sys) (config : Config) (src : String) : Except Error Config :=
  match sys.readFile (sys.filepathJoin src "cacidy.yaml") with
  | .error err => .error err
  | .ok data => sys.yamlUnmarshal data config

/-- The function `NewConfig`. -/
def NewConfig (sys : Sys) (src : String) (w : World) : Except Error Config × World :=
  let w := w.log (Event.newConfig src)
  let conf := Config.zero
  match Config.Load sys conf src with
  | .error err => (.error err, w)
  | .ok conf => (.ok conf, w)

/-- The function `RunPipeline`. -/
def RunPipeline (sys : Sys) (source module function : String) (w : World) :
    Option Error × World :=
  match NewConfig sys source w with
  | (.error err, w) => (some err, w)
  | (.ok config, w) =>
    let module := if module = "" then config.Module else module
    let function := if function = "" then config.Function else function
    runPipeline sys source module function config.Flags w

/-- The call `os.MkdirTemp("", "src")`: a new directory under a name that did not
exist. -/
def osMkdirTemp (sys : Sys) (w : World) : Except Error String × World :=
  match sys.tempDir with
  | .error err => (.error err, w)
  | .ok name =>
    if name = "" ∨ w.fs name ≠ Node.absent then (.error "mkdirtemp: file exists", w)
    else (.ok name, (w.put name Node.dir).log (Event.mkdirTemp name))

/-- The call `os.RemoveAll(path)`; when it fails the path is left in place. -/
def osRemoveAll (sys : Sys) (path : String) (w : World) : Option Error × World :=
  let w := w.log (Event.removeAll path)
  match sys.removeAll path with
  | some err => (some err, w)
  | none => (none, w.put path Node.absent)

/-- The body of the `for` loop of `Listen`: one poll cycle.  The result is the error
`Listen` returns from inside the cycle, or `none` when the cycle reaches the sleep.
Logging and the sleep itself leave the state as it is. -/
def Listen.cycle (sys : Sys) (r : Repository) (dbFile : String) (w : World) :
    Option Error × World :=
  match Checksum sys r w with
  | (.error err, w) => (some err, w)
  | (.ok checksum, w) =>
    match LoadChecksum dbFile w with
    | (.error err, w) => (some err, w)
    | (.ok currentChecksum, w) =>
      let triggered : Option Error × World :=
        if currentChecksum ≠ "" ∧ checksum ≠ currentChecksum then
          match osMkdirTemp sys w with
          | (.error err, w) => (some err, w)
          | (.ok src, w) =>
            match Clone sys r src w with
            | (some err, w) => (some err, w)
            | (none, w) =>
              match NewConfig sys src w with
              | (.error err, w) => (some err, w)
              | (.ok config, w) =>
                match runPipeline sys src config.Module config.Function config.Flags w with
                | (err, w) =>
                  match osRemoveAll sys src w with
                  | (some err, w) => (some err, w)
                  | (none, w) =>
                    match err with
                    | some err => (some err, w)
                    | none => (none, w)
        else (none, w)
      match triggered with
      | (some err, w) => (some err, w)
      | (none, w) => SaveChecksum dbFile checksum w

/-- The loop of `Listen`, one element of `cycles` per iteration: the error it returns,
or `none` while it is still polling when `cycles` is used up. -/
def Listen.loop (r : Repository) (dbFile : String) : List Sys → World → Option Error × World
  | [], w => (none, w)
  | sys :: cycles, w =>
    match Listen.cycle sys r dbFile w with
    | (some err, w) => (some err, w)
    | (none, w) => Listen.loop r dbFile cycles w

/-- The function `Listen`; `join` is `filepath.Join`. -/
def Listen (join : String → String → String) (cycles : List Sys) (dataDir : String)
    (repo : Repository) (w : World) : Option Error × World :=
  if repo.URL = "" ∨ repo.Ref = "" then
    (some "git repository and branch are required", w)
  else
    Listen.loop repo (join dataDir "bolt.db") cycles w

/-- The argument sequence of the specification of `Render`, item by item: the token
`call`; the module option; the debug option; the progress option; the source option;
the flags; the function name. -/
def renderSpec (source module function : String) (flags : List String)
    (debug progress : String) : List String :=
  ["call"]
    ++ (if module ≠ "" then ["-m", module] else [])
    ++ (if debug ≠ "" then ["--debug"] else [])
    ++ (if progress ≠ "" then ["--progress", progress] else [])
    ++ ["--source", source]
    ++ flags
    ++ (if function ≠ "" then [function] else [])

/-! ## Concrete inputs -/

/-- An environment in which every call succeeds: the debug and progress overrides are
set, the remote lists a tag and a branch `dev`, the configuration file names a module,
a function and two flags. -/
def sysOk : Sys where
  getenv := fun k =>
    if k = "CACIDY_DEBUG" then "1" else if k = "CACIDY_PROGRESS" then "plain" else ""
  keyParseError := fun _ => none
  remoteList := fun _ _ => .ok
    [{ name := "refs/tags/dev", hash := "ffffffffffffffffffffffffffffffffffffffff" },
     { name := "refs/heads/dev", hash := "bbbbbbb89abcdef0123456789abcdef012345678" }]
  tempDir := .ok "/tmp/src1"
  plainClone := fun _ _ => none
  filepathJoin := fun a b => a ++ "/" ++ b
  readFile := fun _ => .ok "module: ci\nfunction: build\nflags: [--tag, v1]\n"
  yamlUnmarshal := fun _ c => .ok { c with Module := "ci", Function := "build", Flags := ["--tag", "v1"] }
  cmdRun := fun _ => none
  removeAll := fun _ => none

/-- A descriptor with a key file and no password. -/
def repoKey : Repository :=
  { URL := "git@example.com:app.git", Ref := "dev", Username := "", Password := "",
    PrivateKeyFile := "/home/ci/id_rsa" }

/-- A descriptor with a key file and a password. -/
def repoBoth : Repository :=
  { URL := "https://example.com/app.git", Ref := "dev", Username := "ci", Password := "pw",
    PrivateKeyFile := "/home/ci/id_rsa" }

/-- A descriptor with a password and no key file. -/
def repoBasic : Repository :=
  { URL := "https://example.com/app.git", Ref := "dev", Username := "ci", Password := "pw",
    PrivateKeyFile := "" }

/-- A file system holding the key file and a database with the given bucket state. -/
def fsWith (bucket : Option (Option String)) : String → Node := fun p =>
  if p = "/home/ci/id_rsa" then Node.regular
  else if p = "/data/bolt.db" then Node.boltDb bucket
  else Node.absent

/-- A world whose database records the checksum `aaaaaaa`. -/
def worldStored : World := { fs := fsWith (some (some "aaaaaaa")), trace := [] }

/-- A remote whose branch `dev` is at the stored checksum `aaaaaaa`. -/
def sysSame : Sys :=
  { sysOk with
    remoteList := fun _ _ => .ok
      [{ name := "refs/heads/dev", hash := "aaaaaaa89abcdef0123456789abcdef012345678" }] }

/-- A world without a database file. -/
def worldFresh : World :=
  { fs := fun p => if p = "/home/ci/id_rsa" then Node.regular else Node.absent, trace := [] }

/-- A world in which the directory of the database file is missing. -/
def worldNoDir : World :=
  { fs := fun p =>
      if p = "/home/ci/id_rsa" then Node.regular
      else if p = "/data/bolt.db" then Node.noParent
      else Node.absent,
    trace := [] }

/-- A world in which `/data` is a regular file. -/
def worldNotDir : World :=
  { fs := fun p =>
      if p = "/home/ci/id_rsa" then Node.regular
      else if p = "/data" then Node.regular
      else if p = "/data/bolt.db" then Node.notDir
      else Node.absent,
    trace := [] }

/-! ## Notions used in the statements -/

/-- The world in which a triggered cycle calls `Clone` on the temporary directory `src`:
the world `w` at the start of the cycle after the checksum lookup and `os.MkdirTemp`. -/
def Listen.atClone (w : World) (src : String) : World :=
  ((w.log Event.gitAuth).put src Node.dir).log (Event.mkdirTemp src)

/-- The argument vector `runPipeline` executes for a configuration loaded from `src`. -/
def Listen.command (sys : Sys) (src : String) (config : Config) : List String :=
  ["/bin/sh", "-c", "dagger " ++ callCommand.render
    { source := src, module := config.Module, function := config.Function,
      flags := config.Flags } sys]

/-- The part of a triggered cycle that follows a successful `Clone`. -/
def Listen.afterClone (sys : Sys) (dbFile checksum src : String) (w : World) :
    Option Error × World :=
  match Config.Load sys Config.zero src with
  | .error err => (some err, w.log (Event.newConfig src))
  | .ok config =>
    let w := (w.log (Event.newConfig src)).log
      (Event.runPipeline src config.Module config.Function config.Flags)
    let w := w.log (Event.removeAll src)
    match sys.removeAll src with
    | some err => (some err, w)
    | none =>
      match sys.cmdRun (Listen.command sys src config) with
      | some err => (some err, w.put src Node.absent)
      | none => SaveChecksum dbFile checksum (w.put src Node.absent)

/-- An environment in which the pipeline exits with an error and the removal of the
temporary directory fails too. -/
def sysRunRemoveFail : Sys :=
  { sysOk with
    cmdRun := fun _ => some "exit status 1"
    removeAll := fun _ => some "unlinkat /tmp/src1: permission denied" }

/-- An environment in which `os.MkdirTemp` fails. -/
def sysNoTemp : Sys :=
  { sysOk with tempDir := .error "mkdir /tmp/src1: no space left on device" }

/-- An environment in which the pipeline succeeds and the removal of the temporary
directory fails. -/
def sysRemoveFail : Sys :=
  { sysOk with removeAll := fun _ => some "unlinkat /tmp/src1: permission denied" }

/-- An environment in which the cloned tree has no configuration file. -/
def sysNoConfig : Sys :=
  { sysOk with
    readFile := fun _ => .error "open /tmp/src1/cacidy.yaml: no such file or directory" }

/-! ## Basic facts -/

@[simp]
theorem osStat_log (w : World) (e : Event) (p : String) :
    osStat (w.log e) p = osStat w p := rfl

@[simp]
theorem log_fs (w : World) (e : Event) : (w.log e).fs = w.fs := rfl

@[simp]
theorem log_trace (w : World) (e : Event) : (w.log e).trace = w.trace ++ [e] := rfl

@[simp]
theorem put_trace (w : World) (p : String) (n : Node) : (w.put p n).trace = w.trace := rfl

@[simp]
theorem put_fs (w : World) (p : String) (n : Node) :
    (w.put p n).fs = Function.update w.fs p n := rfl

theorem gitAuth_world (sys : Sys) (r : Repository) (w : World) :
    (gitAuth sys r w).2 = w.log Event.gitAuth := by
  unfold gitAuth
  simp only []
  split <;> [rfl; (split <;> rfl)]

theorem osStat_none_iff (w : World) (p : String) :
    osStat w p = none ↔ lookupErrno w p = none := by
  unfold osStat
  cases lookupErrno w p <;> simp

theorem lookupErrno_none_iff (w : World) (p : String) :
    lookupErrno w p = none ↔
      p ≠ "" ∧ (w.fs p = Node.dir ∨ w.fs p = Node.emptyFile ∨ w.fs p = Node.regular
        ∨ ∃ bucket, w.fs p = Node.boltDb bucket) := by
  unfold lookupErrno
  by_cases hp : p = ""
  · simp [hp]
  · cases h : w.fs p <;> simp [hp]

theorem osStat_none_ne_empty (w : World) (p : String) (h : osStat w p = none) : p ≠ "" :=
  ((lookupErrno_none_iff w p).mp ((osStat_none_iff w p).mp h)).1

theorem osStatIsNotExist_of_none (w : World) (p : String) (h : lookupErrno w p = none) :
    osStatIsNotExist w p = false := by
  simp [osStatIsNotExist, h]

theorem tags_ne_heads (x : String) : "refs/tags/" ++ x ≠ "refs/heads/" ++ x := by
  intro h
  have := congrArg String.data h
  simp [String.data_append] at this

theorem scan_find (r : Repository) (refs : List Reference) :
    Checksum.scan r refs =
      match refs.find? (fun x => decide (x.name = "refs/heads/" ++ r.Ref)) with
      | some ref => .ok (ref.hash.take 7)
      | none => .error "checksum not found" := by
  induction refs with
  | nil => rfl
  | cons ref refs ih =>
    unfold Checksum.scan
    by_cases h : ref.name = "refs/heads/" ++ r.Ref
    · simp [h]
    · simp [h, ih]

theorem render_eq (c : callCommand) (sys : Sys) :
    c.render sys = " ".intercalate (renderSpec c.source c.module c.function c.flags
        (sys.getenv "CACIDY_DEBUG") (sys.getenv "CACIDY_PROGRESS")) := by
  unfold callCommand.render renderSpec
  have hflags : ∀ l : List String,
      (if c.flags.length > 0 then l ++ c.flags else l) = l ++ c.flags := by
    intro l
    cases hf : c.flags <;> simp
  simp only [hflags]
  by_cases h1 : c.module = "" <;> by_cases h2 : sys.getenv "CACIDY_DEBUG" = "" <;>
    by_cases h3 : sys.getenv "CACIDY_PROGRESS" = "" <;> by_cases h4 : c.function = "" <;>
    simp [h1, h2, h3, h4]

/-! ## Rendering, reference resolution, authentication -/

/-- C6. `callCommand.render` joins with single spaces exactly the token sequence of the
specification (`call`; `-m` module if the module is non-empty; `--debug` if the debug
override is non-empty; `--progress` value if the progress override is non-empty;
`--source` source; the flags in order; the function if non-empty), and the example of
the specification renders as stated. -/
theorem render_spec (c : callCommand) (sys : Sys) :
    c.render sys = " ".intercalate (renderSpec c.source c.module c.function c.flags
        (sys.getenv "CACIDY_DEBUG") (sys.getenv "CACIDY_PROGRESS"))
    ∧ renderSpec c.source c.module c.function c.flags
        (sys.getenv "CACIDY_DEBUG") (sys.getenv "CACIDY_PROGRESS") =
      ["call"] ++ (if c.module ≠ "" then ["-m", c.module] else [])
        ++ (if sys.getenv "CACIDY_DEBUG" ≠ "" then ["--debug"] else [])
        ++ (if sys.getenv "CACIDY_PROGRESS" ≠ "" then
              ["--progress", sys.getenv "CACIDY_PROGRESS"] else [])
        ++ ["--source", c.source] ++ c.flags
        ++ (if c.function ≠ "" then [c.function] else [])
    ∧ (sys.getenv "CACIDY_DEBUG" ≠ "" → sys.getenv "CACIDY_PROGRESS" = "plain" →
        callCommand.render
          { source := "/tmp/src", module := "m", function := "f", flags := ["--x"] } sys =
        "call -m m --debug --progress plain --source /tmp/src --x f") := by
  refine ⟨render_eq c sys, rfl, ?_⟩
  intro hd hp
  rw [render_eq]
  simp only [renderSpec, hp]
  rw [if_pos hd]
  decide

/-- The example of C6 in an environment where both overrides are set. -/
theorem render_spec_witness :
    callCommand.render
        { source := "/tmp/src", module := "m", function := "f", flags := ["--x"] } sysOk =
      "call -m m --debug --progress plain --source /tmp/src --x f" :=
  (render_spec { source := "/tmp/src", module := "m", function := "f", flags := ["--x"] }
    sysOk).2.2 (by decide) (by decide)

/-- C7. When authentication resolves and the listing returns `refs`, `Checksum` returns
the first 7 characters of the hash of the (first) listed reference named exactly
`refs/heads/` followed by the descriptor ref; it fails with `checksum not found` if and
only if no listed reference has that name; a reference `refs/tags/` followed by the same
short name does not match. -/
theorem Checksum_resolves (sys : Sys) (r : Repository) (w w1 : World)
    (auth : Option AuthMethod) (refs : List Reference)
    (hauth : gitAuth sys r w = (.ok auth, w1))
    (hlist : sys.remoteList r.URL auth = .ok refs) :
    (∀ ref, refs.find? (fun x => decide (x.name = "refs/heads/" ++ r.Ref)) = some ref →
        (Checksum sys r w).1 = .ok (ref.hash.take 7))
    ∧ ((Checksum sys r w).1 = .error "checksum not found" ↔
        ∀ ref ∈ refs, ref.name ≠ "refs/heads/" ++ r.Ref)
    ∧ (∀ hash, refs = [{ name := "refs/tags/" ++ r.Ref, hash := hash }] →
        (Checksum sys r w).1 = .error "checksum not found") := by
  have hck : (Checksum sys r w).1 = Checksum.scan r refs := by
    simp [Checksum, hauth, hlist]
  rw [hck, scan_find]
  refine ⟨?_, ?_, ?_⟩
  · intro ref href
    simp [href]
  · constructor
    · intro h ref href hname
      cases hf : refs.find? (fun x => decide (x.name = "refs/heads/" ++ r.Ref)) with
      | some found => simp [hf] at h
      | none =>
        have := List.find?_eq_none.mp hf ref href
        simp [hname] at this
    · intro h
      have hf : refs.find? (fun x => decide (x.name = "refs/heads/" ++ r.Ref)) = none := by
        apply List.find?_eq_none.mpr
        intro ref href
        simpa using h ref href
      simp [hf]
  · intro hash hrefs
    subst hrefs
    simp [List.find?, tags_ne_heads r.Ref]

/-- C7 on a listing with a tag and a branch of the same short name. -/
theorem Checksum_resolves_witness :
    (Checksum sysOk repoKey worldStored).1 = .ok "bbbbbbb" :=
  (Checksum_resolves sysOk repoKey worldStored (worldStored.log Event.gitAuth)
    (some (AuthMethod.PublicKeys "git" "/home/ci/id_rsa"))
    [{ name := "refs/tags/dev", hash := "ffffffffffffffffffffffffffffffffffffffff" },
     { name := "refs/heads/dev", hash := "bbbbbbb89abcdef0123456789abcdef012345678" }]
    rfl rfl).1
    { name := "refs/heads/dev", hash := "bbbbbbb89abcdef0123456789abcdef012345678" }
    (by decide)

/-- C8. For a descriptor whose private-key path names an existing file that parses as a
key: with a non-empty password `gitAuth` returns basic-auth built from the descriptor
username and password; with an empty password it returns key auth for that file. -/
theorem gitAuth_precedence (sys : Sys) (r : Repository) (w : World)
    (hkey : osStat w r.PrivateKeyFile = none)
    (hparse : sys.keyParseError r.PrivateKeyFile = none) :
    (r.Password ≠ "" →
        (gitAuth sys r w).1 = .ok (some (AuthMethod.BasicAuth r.Username r.Password)))
    ∧ (r.Password = "" →
        (gitAuth sys r w).1 = .ok (some (AuthMethod.PublicKeys "git" r.PrivateKeyFile))) := by
  have hne := osStat_none_ne_empty w r.PrivateKeyFile hkey
  constructor
  · intro hp
    simp [gitAuth, hne, hkey, hparse, sshNewPublicKeysFromFile, hp]
  · intro hp
    simp [gitAuth, hne, hkey, hparse, sshNewPublicKeysFromFile, hp]

/-- C8 on a descriptor with both a key file and a password. -/
theorem gitAuth_precedence_witness :
    (gitAuth sysOk repoBoth worldStored).1 = .ok (some (AuthMethod.BasicAuth "ci" "pw")) :=
  (gitAuth_precedence sysOk repoBoth worldStored (by decide) rfl).1 (by decide)

theorem gitAuth_eq (sys : Sys) (r : Repository) (w : World) :
    gitAuth sys r w = ((gitAuth sys r w).1, w.log Event.gitAuth) :=
  Prod.ext rfl (gitAuth_world sys r w)

theorem gitAuth_fst_congr (sys : Sys) (r : Repository) (w v : World)
    (h : osStat w r.PrivateKeyFile = osStat v r.PrivateKeyFile) :
    (gitAuth sys r w).1 = (gitAuth sys r v).1 := by
  unfold gitAuth
  simp only [osStat_log, h]
  split <;> [rfl; (split <;> rfl)]

theorem Checksum_world (sys : Sys) (r : Repository) (w : World) :
    (Checksum sys r w).2 = w.log Event.gitAuth := by
  unfold Checksum
  rw [gitAuth_eq]
  cases (gitAuth sys r w).1 with
  | error e => rfl
  | ok auth =>
    simp only []
    split <;> rfl

theorem Checksum_eq (sys : Sys) (r : Repository) (w : World) (h : String)
    (hck : (Checksum sys r w).1 = .ok h) :
    Checksum sys r w = (.ok h, w.log Event.gitAuth) :=
  Prod.ext hck (Checksum_world sys r w)

theorem Clone_key_fails (sys : Sys) (r : Repository) (dir : String) (w : World) (err : Error)
    (h : osStat w r.PrivateKeyFile = some err) :
    Clone sys r dir w = (some err, w.log (Event.clone dir)) := by
  simp [Clone, h]

theorem Clone_ok (sys : Sys) (r : Repository) (dir : String) (w : World)
    (auth : Option AuthMethod)
    (hkey : osStat w r.PrivateKeyFile = none)
    (hauth : (gitAuth sys r w).1 = .ok auth) :
    Clone sys r dir w =
      ((sys.plainClone dir { Auth := auth, URL := r.URL, ReferenceName := "" }).map
          (fun err => "failed cloning the application: " ++ err),
        ((w.log (Event.clone dir)).log Event.gitAuth).log
          (Event.plainClone dir { Auth := auth, URL := r.URL, ReferenceName := "" })) := by
  have h2 : (gitAuth sys r (w.log (Event.clone dir))).1 = .ok auth := by
    rw [← hauth]
    exact gitAuth_fst_congr _ _ _ _ rfl
  unfold Clone
  simp only [osStat_log, hkey]
  rw [gitAuth_eq, h2]
  simp only [gitPlainClone]
  cases sys.plainClone dir { Auth := auth, URL := r.URL, ReferenceName := "" } <;> rfl

/-- C9 (the code at a failing input). For the descriptor watching branch `dev`, the one
clone request `Clone` issues carries the key auth `gitAuth` resolves and the URL, and
leaves `ReferenceName` empty instead of naming `refs/heads/dev`; and for every
descriptor the outcome of `Clone` is the same whatever the descriptor ref is. -/
theorem Clone_request_omits_ref :
    (Clone sysOk repoKey "/tmp/src1" worldStored).2.trace =
      [Event.clone "/tmp/src1", Event.gitAuth,
        Event.plainClone "/tmp/src1"
          { Auth := some (AuthMethod.PublicKeys "git" "/home/ci/id_rsa"),
            URL := "git@example.com:app.git", ReferenceName := "" }]
    ∧ (gitAuth sysOk repoKey worldStored).1 =
        .ok (some (AuthMethod.PublicKeys "git" "/home/ci/id_rsa"))
    ∧ "" ≠ "refs/heads/" ++ repoKey.Ref
    ∧ ∀ (sys : Sys) (r : Repository) (ref dir : String) (w : World),
        Clone sys { r with Ref := ref } dir w = Clone sys r dir w := by
  refine ⟨by decide, by decide, by decide, ?_⟩
  intro sys r ref dir w
  rfl

/-- C10. When `os.Stat` fails on the private-key path (nothing exists there, or the
path is empty), `Clone` returns that error having recorded only its own call: no auth
resolution and no clone request, whatever the password is.  With an empty key path
`os.Stat` does fail, while `gitAuth` succeeds (basic-auth if a password is set, no auth
otherwise) and the result of `Checksum` is decided by the listing alone. -/
theorem Clone_key_precondition (sys : Sys) (r : Repository) (dir : String) (w : World) :
    (∀ err, osStat w r.PrivateKeyFile = some err →
        Clone sys r dir w = (some err, w.log (Event.clone dir)))
    ∧ (r.PrivateKeyFile = "" →
        osStat w r.PrivateKeyFile ≠ none
        ∧ (gitAuth sys r w).1 =
            .ok (if r.Password ≠ "" then some (AuthMethod.BasicAuth r.Username r.Password)
                 else none)
        ∧ (Checksum sys r w).1 =
            match sys.remoteList r.URL
                (if r.Password ≠ "" then some (AuthMethod.BasicAuth r.Username r.Password)
                 else none) with
            | .error err => .error ("failed getting the application checksum: " ++ err)
            | .ok refs => Checksum.scan r refs) := by
  refine ⟨fun err h => Clone_key_fails sys r dir w err h, ?_⟩
  intro hk
  have hauth : (gitAuth sys r w).1 =
      .ok (if r.Password ≠ "" then some (AuthMethod.BasicAuth r.Username r.Password)
           else none) := by
    unfold gitAuth
    by_cases hp : r.Password = "" <;> simp [hk, hp]
  refine ⟨by simp [osStat, lookupErrno, hk], hauth, ?_⟩
  unfold Checksum
  rw [gitAuth_eq, hauth]
  simp only []
  split <;> simp_all

/-- C10 on a descriptor with a password and no key file: `Clone` fails on the empty
path, `Checksum` resolves the branch. -/
theorem Clone_key_precondition_witness :
    Clone sysOk repoBasic "/tmp/src1" worldStored =
        (some "stat : no such file or directory", worldStored.log (Event.clone "/tmp/src1"))
    ∧ (Checksum sysOk repoBasic worldStored).1 = .ok "bbbbbbb" :=
  ⟨(Clone_key_precondition sysOk repoBasic "/tmp/src1" worldStored).1 _ rfl,
    ((Clone_key_precondition sysOk repoBasic "/tmp/src1" worldStored).2 rfl).2.2.trans rfl⟩

/-! ## The checksum store -/

theorem lookupErrno_db (w : World) (p : String) (bucket : Option (Option String))
    (hp : p ≠ "") (h : w.fs p = Node.boltDb bucket) : lookupErrno w p = none :=
  (lookupErrno_none_iff w p).mpr ⟨hp, Or.inr (Or.inr (Or.inr ⟨bucket, h⟩))⟩

theorem LoadChecksum_db (dbFile : String) (w : World) (bucket : Option (Option String))
    (hdb : dbFile ≠ "") (hst : w.fs dbFile = Node.boltDb bucket) :
    LoadChecksum dbFile w = (.ok (LoadChecksum.view bucket).2, w) := by
  have hs : osStatIsNotExist w dbFile = false :=
    osStatIsNotExist_of_none w dbFile (lookupErrno_db w dbFile bucket hdb hst)
  unfold LoadChecksum
  simp only [hs, boltOpen, hdb, if_false, hst]
  rcases bucket with _ | _ | data <;> rfl

theorem LoadChecksum_absent (dbFile : String) (w : World) (hst : w.fs dbFile = Node.absent) :
    LoadChecksum dbFile w = (.ok "", w) := by
  unfold LoadChecksum osStatIsNotExist lookupErrno
  by_cases hdb : dbFile = "" <;> simp [hdb, hst]

theorem SaveChecksum_ok (dbFile checksum : String) (w : World) (hdb : dbFile ≠ "")
    (hst : w.fs dbFile = Node.absent ∨ w.fs dbFile = Node.emptyFile
      ∨ ∃ bucket, w.fs dbFile = Node.boltDb bucket) :
    (SaveChecksum dbFile checksum w).1 = none
    ∧ (SaveChecksum dbFile checksum w).2.trace =
        w.trace ++ [Event.saveChecksum dbFile checksum]
    ∧ (SaveChecksum dbFile checksum w).2.fs =
        Function.update w.fs dbFile (Node.boltDb (some (some checksum))) := by
  unfold SaveChecksum boltOpen
  rcases hst with h | h | ⟨bucket, h⟩ <;> simp [hdb, h]

/-! ## Poll cycles that do not trigger -/

/-- C3 (amended). Let the lookup resolve to `H`.  For a fresh store whose database file
does not exist in an existing directory, or is an empty file, or is a database without
the bucket or without the checksum record, one poll cycle completes, and what it does
after the lookup is exactly one call `SaveChecksum` with `H` (no clone, no config load,
no pipeline invocation); afterwards the store holds `H`.  When the file does not exist
because its directory is missing, the cycle calls `SaveChecksum` with `H`, returns the
error of `bolt.Open` and leaves the file system as it was; when a parent of the path is
a regular file, the cycle returns the error of `bolt.Open` from `LoadChecksum` without
calling `SaveChecksum`.  In neither case is there a clone or a pipeline invocation. -/
theorem cycle_baseline (sys : Sys) (r : Repository) (dbFile : String) (w : World)
    (H : String) (hck : (Checksum sys r w).1 = .ok H) :
    (dbFile ≠ "" →
      w.fs dbFile = Node.absent ∨ w.fs dbFile = Node.emptyFile
        ∨ w.fs dbFile = Node.boltDb none ∨ w.fs dbFile = Node.boltDb (some none) →
      (Listen.cycle sys r dbFile w).1 = none
      ∧ (Listen.cycle sys r dbFile w).2.trace =
          w.trace ++ [Event.gitAuth, Event.saveChecksum dbFile H]
      ∧ (Listen.cycle sys r dbFile w).2.fs dbFile = Node.boltDb (some (some H)))
    ∧ (w.fs dbFile = Node.noParent →
      (Listen.cycle sys r dbFile w).1 =
          some ("open " ++ dbFile ++ ": no such file or directory")
      ∧ (Listen.cycle sys r dbFile w).2.trace =
          w.trace ++ [Event.gitAuth, Event.saveChecksum dbFile H]
      ∧ (Listen.cycle sys r dbFile w).2.fs = w.fs)
    ∧ (dbFile ≠ "" → w.fs dbFile = Node.notDir →
      (Listen.cycle sys r dbFile w).1 = some ("open " ++ dbFile ++ ": not a directory")
      ∧ (Listen.cycle sys r dbFile w).2.trace = w.trace ++ [Event.gitAuth]
      ∧ (Listen.cycle sys r dbFile w).2.fs = w.fs) := by
  have hcycle : ∀ v : World, LoadChecksum dbFile (w.log Event.gitAuth) = (.ok "", v) →
      Listen.cycle sys r dbFile w = SaveChecksum dbFile H v := by
    intro v hload
    unfold Listen.cycle
    rw [Checksum_eq sys r w H hck]
    simp only [hload]
    simp
  refine ⟨?_, ?_, ?_⟩
  · intro hdb hfresh
    rcases hfresh with h | h | h | h
    · rw [hcycle _ (LoadChecksum_absent dbFile (w.log Event.gitAuth) h)]
      have hsave := SaveChecksum_ok dbFile H (w.log Event.gitAuth) hdb (Or.inl h)
      refine ⟨hsave.1, ?_, ?_⟩
      · rw [hsave.2.1]; simp
      · rw [hsave.2.2]; simp
    · have hload : LoadChecksum dbFile (w.log Event.gitAuth) =
          (.ok "", (w.log Event.gitAuth).put dbFile (Node.boltDb none)) := by
        have hs : osStatIsNotExist (w.log Event.gitAuth) dbFile = false :=
          osStatIsNotExist_of_none _ _
            ((lookupErrno_none_iff _ _).mpr ⟨hdb, Or.inr (Or.inl h)⟩)
        have h2 : (w.log Event.gitAuth).fs dbFile = Node.emptyFile := h
        unfold LoadChecksum
        simp only [hs, boltOpen, hdb, if_false, h2]
        rfl
      rw [hcycle _ hload]
      have hsave := SaveChecksum_ok dbFile H
        ((w.log Event.gitAuth).put dbFile (Node.boltDb none)) hdb
        (Or.inr (Or.inr ⟨none, by simp⟩))
      refine ⟨hsave.1, ?_, ?_⟩
      · rw [hsave.2.1]; simp
      · rw [hsave.2.2]; simp
    · rw [hcycle _ (LoadChecksum_db dbFile (w.log Event.gitAuth) _ hdb h)]
      have hsave := SaveChecksum_ok dbFile H (w.log Event.gitAuth) hdb
        (Or.inr (Or.inr ⟨_, h⟩))
      refine ⟨hsave.1, ?_, ?_⟩
      · rw [hsave.2.1]; simp
      · rw [hsave.2.2]; simp
    · rw [hcycle _ (LoadChecksum_db dbFile (w.log Event.gitAuth) _ hdb h)]
      have hsave := SaveChecksum_ok dbFile H (w.log Event.gitAuth) hdb
        (Or.inr (Or.inr ⟨_, h⟩))
      refine ⟨hsave.1, ?_, ?_⟩
      · rw [hsave.2.1]; simp
      · rw [hsave.2.2]; simp
  · intro h
    have hload : LoadChecksum dbFile (w.log Event.gitAuth) = (.ok "", w.log Event.gitAuth) := by
      have h2 : (w.log Event.gitAuth).fs dbFile = Node.noParent := h
      unfold LoadChecksum osStatIsNotExist lookupErrno
      by_cases hdb : dbFile = "" <;> simp [hdb, h2]
    rw [hcycle _ hload]
    unfold SaveChecksum boltOpen
    by_cases hdb : dbFile = ""
    · simp [hdb]
    · simp [hdb, h]
  · intro hdb h
    have h2 : (w.log Event.gitAuth).fs dbFile = Node.notDir := h
    unfold Listen.cycle
    rw [Checksum_eq sys r w H hck]
    simp [LoadChecksum, osStatIsNotExist, lookupErrno, boltOpen, hdb, h2]

/-- C3 on a world without a database file, in an existing directory. -/
theorem cycle_baseline_witness :
    (Listen.cycle sysOk repoKey "/data/bolt.db" worldFresh).1 = none
    ∧ (Listen.cycle sysOk repoKey "/data/bolt.db" worldFresh).2.trace =
        worldFresh.trace ++ [Event.gitAuth, Event.saveChecksum "/data/bolt.db" "bbbbbbb"]
    ∧ (Listen.cycle sysOk repoKey "/data/bolt.db" worldFresh).2.fs "/data/bolt.db" =
        Node.boltDb (some (some "bbbbbbb")) :=
  (cycle_baseline sysOk repoKey "/data/bolt.db" worldFresh "bbbbbbb" rfl).1 (by decide)
    (Or.inl rfl)

/-- C3 (counterexample). The database file does not exist and the lookup resolves to
`bbbbbbb`.  Where the data directory is missing, the cycle returns the error of
`bolt.Open` from `SaveChecksum` and the store does not hold `bbbbbbb`; where a parent
of the path is a regular file, the cycle returns the error of `bolt.Open` from
`LoadChecksum` without calling `SaveChecksum`. -/
theorem cycle_baseline_counterexample :
    ((Checksum sysOk repoKey worldNoDir).1 = .ok "bbbbbbb"
      ∧ osStatIsNotExist worldNoDir "/data/bolt.db" = true
      ∧ (Listen.cycle sysOk repoKey "/data/bolt.db" worldNoDir).1 =
          some "open /data/bolt.db: no such file or directory"
      ∧ (Listen.cycle sysOk repoKey "/data/bolt.db" worldNoDir).2.fs "/data/bolt.db" ≠
          Node.boltDb (some (some "bbbbbbb")))
    ∧ ((Checksum sysOk repoKey worldNotDir).1 = .ok "bbbbbbb"
      ∧ osStat worldNotDir "/data/bolt.db" = some "stat /data/bolt.db: not a directory"
      ∧ (Listen.cycle sysOk repoKey "/data/bolt.db" worldNotDir).1 =
          some "open /data/bolt.db: not a directory"
      ∧ (Listen.cycle sysOk repoKey "/data/bolt.db" worldNotDir).2.trace = [Event.gitAuth]
      ∧ (Listen.cycle sysOk repoKey "/data/bolt.db" worldNotDir).2.fs "/data/bolt.db" ≠
          Node.boltDb (some (some "bbbbbbb"))) := by
  refine ⟨⟨rfl, rfl, ?_, ?_⟩, rfl, rfl, ?_, ?_, ?_⟩ <;> decide

/-- C4. When the store holds `H` and the lookup resolves to `H` again, one poll cycle
completes, and what it does after the lookup is exactly one call `SaveChecksum` with
`H` (no clone, no config load, no pipeline invocation); the file system, and with it
the store holding `H`, is left as it was. -/
theorem cycle_unchanged (sys : Sys) (r : Repository) (dbFile : String) (w : World)
    (H : String) (hdb : dbFile ≠ "")
    (hst : w.fs dbFile = Node.boltDb (some (some H)))
    (hck : (Checksum sys r w).1 = .ok H) :
    (Listen.cycle sys r dbFile w).1 = none
    ∧ (Listen.cycle sys r dbFile w).2.trace =
        w.trace ++ [Event.gitAuth, Event.saveChecksum dbFile H]
    ∧ (Listen.cycle sys r dbFile w).2.fs = w.fs
    ∧ (Listen.cycle sys r dbFile w).2.fs dbFile = Node.boltDb (some (some H)) := by
  have hload : LoadChecksum dbFile (w.log Event.gitAuth) = (.ok H, w.log Event.gitAuth) :=
    LoadChecksum_db dbFile (w.log Event.gitAuth) _ hdb hst
  have hsave := SaveChecksum_ok dbFile H (w.log Event.gitAuth) hdb (Or.inr (Or.inr ⟨_, hst⟩))
  have hcycle : Listen.cycle sys r dbFile w = SaveChecksum dbFile H (w.log Event.gitAuth) := by
    unfold Listen.cycle
    rw [Checksum_eq sys r w H hck]
    simp only [hload]
    simp
  have hfs : (SaveChecksum dbFile H (w.log Event.gitAuth)).2.fs = w.fs := by
    rw [hsave.2.2, log_fs, ← hst]
    exact Function.update_eq_self dbFile w.fs
  rw [hcycle]
  refine ⟨hsave.1, ?_, hfs, ?_⟩
  · rw [hsave.2.1]; simp
  · rw [hfs, hst]

/-- C4 on the store holding `aaaaaaa` and a remote still at `aaaaaaa`. -/
theorem cycle_unchanged_witness :
    (Listen.cycle sysSame repoKey "/data/bolt.db" worldStored).1 = none
    ∧ (Listen.cycle sysSame repoKey "/data/bolt.db" worldStored).2.trace =
        worldStored.trace ++ [Event.gitAuth, Event.saveChecksum "/data/bolt.db" "aaaaaaa"]
    ∧ (Listen.cycle sysSame repoKey "/data/bolt.db" worldStored).2.fs = worldStored.fs
    ∧ (Listen.cycle sysSame repoKey "/data/bolt.db" worldStored).2.fs "/data/bolt.db" =
        Node.boltDb (some (some "aaaaaaa")) :=
  cycle_unchanged sysSame repoKey "/data/bolt.db" worldStored "aaaaaaa" (by decide) rfl rfl

/-! ## Triggered poll cycles -/

theorem osMkdirTemp_ok (sys : Sys) (w : World) (src : String)
    (htmp : sys.tempDir = .ok src) (hsrc : src ≠ "") (hfree : w.fs src = Node.absent) :
    osMkdirTemp sys w = (.ok src, (w.put src Node.dir).log (Event.mkdirTemp src)) := by
  simp [osMkdirTemp, htmp, hsrc, hfree]

theorem Clone_frame (sys : Sys) (r : Repository) (dir : String) (w : World) :
    (Clone sys r dir w).2.fs = w.fs
    ∧ ∃ delta, (Clone sys r dir w).2.trace = w.trace ++ delta
        ∧ ∀ e ∈ delta, e = Event.clone dir ∨ e = Event.gitAuth
            ∨ ∃ o, e = Event.plainClone dir o := by
  unfold Clone
  simp only [osStat_log]
  cases osStat w r.PrivateKeyFile with
  | some err => exact ⟨rfl, [Event.clone dir], rfl, by simp⟩
  | none =>
    simp only []
    rw [gitAuth_eq]
    cases (gitAuth sys r (w.log (Event.clone dir))).1 with
    | error err => exact ⟨rfl, [Event.clone dir, Event.gitAuth], by simp, by simp⟩
    | ok auth =>
      simp only [gitPlainClone]
      cases sys.plainClone dir { Auth := auth, URL := r.URL, ReferenceName := "" } with
      | some err =>
        exact ⟨rfl, [Event.clone dir, Event.gitAuth,
          Event.plainClone dir { Auth := auth, URL := r.URL, ReferenceName := "" }],
          by simp, by simp⟩
      | none =>
        exact ⟨rfl, [Event.clone dir, Event.gitAuth,
          Event.plainClone dir { Auth := auth, URL := r.URL, ReferenceName := "" }],
          by simp, by simp⟩

theorem NewConfig_eq (sys : Sys) (src : String) (w : World) :
    NewConfig sys src w = (Config.Load sys Config.zero src, w.log (Event.newConfig src)) := by
  unfold NewConfig
  simp only []
  split <;> simp_all

theorem cycle_triggered (sys : Sys) (r : Repository) (dbFile : String) (w : World)
    (H H2 src : String) (hdb : dbFile ≠ "")
    (hst : w.fs dbFile = Node.boltDb (some (some H))) (hH : H ≠ "") (hne : H2 ≠ H)
    (hck : (Checksum sys r w).1 = .ok H2)
    (htmp : sys.tempDir = .ok src) (hsrc : src ≠ "") (hfree : w.fs src = Node.absent) :
    Listen.cycle sys r dbFile w =
      match (Clone sys r src (Listen.atClone w src)).1 with
      | some err => (some err, (Clone sys r src (Listen.atClone w src)).2)
      | none => Listen.afterClone sys dbFile H2 src (Clone sys r src (Listen.atClone w src)).2 := by
  have hload : LoadChecksum dbFile (w.log Event.gitAuth) = (.ok H, w.log Event.gitAuth) :=
    LoadChecksum_db dbFile (w.log Event.gitAuth) _ hdb hst
  have hmk := osMkdirTemp_ok sys (w.log Event.gitAuth) src htmp hsrc hfree
  unfold Listen.cycle
  rw [Checksum_eq sys r w H2 hck]
  simp only [hload, hH, hne, ne_eq, not_false_eq_true, and_self, if_true, hmk]
  change (match (match Clone sys r src (Listen.atClone w src) with
    | (some err, w) => (some err, w)
    | (none, w) => _) with | (some err, w) => (some err, w) | (none, w) => _) = _
  rcases hc : Clone sys r src (Listen.atClone w src) with ⟨cerr, w3⟩
  cases cerr with
  | some err => rfl
  | none =>
    simp only [NewConfig_eq, Listen.afterClone]
    cases Config.Load sys Config.zero src with
    | error err => rfl
    | ok config =>
      simp only [runPipeline, osRemoveAll, Listen.command]
      cases sys.removeAll src with
      | some err => rfl
      | none =>
        simp only []
        cases sys.cmdRun _ with
        | some err => rfl
        | none => rfl

theorem atClone_fs_other (w : World) (src p : String) (h : p ≠ src) :
    (Listen.atClone w src).fs p = w.fs p := by
  simp [Listen.atClone, Function.update_noteq h]

theorem atClone_trace (w : World) (src : String) :
    (Listen.atClone w src).trace = w.trace ++ [Event.gitAuth, Event.mkdirTemp src] := by
  simp [Listen.atClone]

theorem atClone_osStat (w : World) (src p : String) (h : osStat w p = none) :
    osStat (Listen.atClone w src) p = none := by
  rw [osStat_none_iff] at h ⊢
  rw [lookupErrno_none_iff] at h ⊢
  refine ⟨h.1, ?_⟩
  by_cases hps : p = src
  · subst hps
    exact Or.inl (by simp [Listen.atClone])
  · rw [atClone_fs_other w src p hps]
    exact h.2

theorem cycle_mkdir_fails (sys : Sys) (r : Repository) (dbFile : String) (w : World)
    (H H2 : String) (err : Error) (hdb : dbFile ≠ "")
    (hst : w.fs dbFile = Node.boltDb (some (some H))) (hH : H ≠ "") (hne : H2 ≠ H)
    (hck : (Checksum sys r w).1 = .ok H2)
    (hmk : osMkdirTemp sys (w.log Event.gitAuth) = (.error err, w.log Event.gitAuth)) :
    Listen.cycle sys r dbFile w = (some err, w.log Event.gitAuth) := by
  have hload : LoadChecksum dbFile (w.log Event.gitAuth) = (.ok H, w.log Event.gitAuth) :=
    LoadChecksum_db dbFile (w.log Event.gitAuth) _ hdb hst
  unfold Listen.cycle
  rw [Checksum_eq sys r w H2 hck]
  simp only [hload, hH, hne, ne_eq, not_false_eq_true, and_self, if_true, hmk]

theorem afterClone_error (sys : Sys) (dbFile checksum src : String) (w : World)
    (bucket : Option (Option String))
    (hdb : dbFile ≠ "") (hsrc : dbFile ≠ src) (hst : w.fs dbFile = Node.boltDb bucket)
    (err : Error) (herr : (Listen.afterClone sys dbFile checksum src w).1 = some err) :
    (∃ delta, (Listen.afterClone sys dbFile checksum src w).2.trace = w.trace ++ delta
        ∧ ∀ f c, Event.saveChecksum f c ∉ delta)
    ∧ (Listen.afterClone sys dbFile checksum src w).2.fs dbFile = Node.boltDb bucket := by
  unfold Listen.afterClone at herr ⊢
  cases hl : Config.Load sys Config.zero src with
  | error e => exact ⟨⟨[Event.newConfig src], rfl, by simp⟩, hst⟩
  | ok config =>
    rw [hl] at herr
    simp only [] at herr ⊢
    cases hr : sys.removeAll src with
    | some e =>
      exact ⟨⟨[Event.newConfig src,
        Event.runPipeline src config.Module config.Function config.Flags,
        Event.removeAll src], by simp, by simp⟩, hst⟩
    | none =>
      rw [hr] at herr
      simp only [] at herr ⊢
      cases hc : sys.cmdRun (Listen.command sys src config) with
      | some e =>
        refine ⟨⟨[Event.newConfig src,
          Event.runPipeline src config.Module config.Function config.Flags,
          Event.removeAll src], by simp, by simp⟩, ?_⟩
        simp [Function.update_noteq hsrc, hst]
      | none =>
        rw [hc] at herr
        simp only [] at herr
        have hs := SaveChecksum_ok dbFile checksum
          ((((w.log (Event.newConfig src)).log
            (Event.runPipeline src config.Module config.Function config.Flags)).log
            (Event.removeAll src)).put src Node.absent) hdb
          (Or.inr (Or.inr ⟨bucket, by simp [Function.update_noteq hsrc, hst]⟩))
        rw [hs.1] at herr
        cases herr

theorem osMkdirTemp_error (sys : Sys) (v : World) (err : Error)
    (h : (osMkdirTemp sys v).1 = .error err) : osMkdirTemp sys v = (.error err, v) := by
  unfold osMkdirTemp at h ⊢
  cases htd : sys.tempDir with
  | error e =>
    rw [htd] at h
    simp only [] at h ⊢
    rw [h]
  | ok name =>
    rw [htd] at h
    simp only [] at h ⊢
    by_cases hbad : name = "" ∨ v.fs name ≠ Node.absent
    · rw [if_pos hbad] at h ⊢
      simp only [] at h
      rw [h]
    · rw [if_neg hbad] at h
      cases h

theorem osMkdirTemp_ok_inv (sys : Sys) (v : World) (src : String)
    (h : (osMkdirTemp sys v).1 = .ok src) :
    sys.tempDir = .ok src ∧ src ≠ "" ∧ v.fs src = Node.absent := by
  unfold osMkdirTemp at h
  cases htd : sys.tempDir with
  | error e =>
    rw [htd] at h
    cases h
  | ok name =>
    rw [htd] at h
    simp only [] at h
    by_cases hbad : name = "" ∨ v.fs name ≠ Node.absent
    · rw [if_pos hbad] at h
      cases h
    · rw [if_neg hbad] at h
      simp only [Except.ok.injEq] at h
      subst h
      refine ⟨rfl, fun hn => hbad (Or.inl hn), ?_⟩
      by_contra hf
      exact hbad (Or.inr hf)

theorem Clone_trace (sys : Sys) (r : Repository) (dir : String) (w : World) :
    ((Clone sys r dir w).1 = none →
      ∃ auth, (gitAuth sys r w).1 = .ok auth
        ∧ (Clone sys r dir w).2.trace = w.trace ++ [Event.clone dir, Event.gitAuth,
            Event.plainClone dir { Auth := auth, URL := r.URL, ReferenceName := "" }])
    ∧ (∀ err, (Clone sys r dir w).1 = some err →
      ∃ rest, (Clone sys r dir w).2.trace = w.trace ++ [Event.clone dir] ++ rest
        ∧ (rest = [] ∨ rest = [Event.gitAuth]
          ∨ ∃ auth, rest = [Event.gitAuth,
              Event.plainClone dir { Auth := auth, URL := r.URL, ReferenceName := "" }])) := by
  cases hs : osStat w r.PrivateKeyFile with
  | some e =>
    rw [Clone_key_fails sys r dir w e hs]
    exact ⟨fun h => (by cases h), fun err _ => ⟨[], by simp, Or.inl rfl⟩⟩
  | none =>
    cases ha : (gitAuth sys r w).1 with
    | error e =>
      have h2 : (gitAuth sys r (w.log (Event.clone dir))).1 = .error e := by
        rw [← ha]
        exact gitAuth_fst_congr _ _ _ _ rfl
      have hc : Clone sys r dir w =
          (some e, (w.log (Event.clone dir)).log Event.gitAuth) := by
        unfold Clone
        simp only [osStat_log, hs]
        rw [gitAuth_eq, h2]
      rw [hc]
      exact ⟨fun h => (by cases h),
        fun err _ => ⟨[Event.gitAuth], by simp, Or.inr (Or.inl rfl)⟩⟩
    | ok auth =>
      rw [Clone_ok sys r dir w auth hs ha]
      refine ⟨fun _ => ⟨auth, rfl, by simp⟩, fun err _ => ⟨_, ?_, Or.inr (Or.inr ⟨auth, rfl⟩)⟩⟩
      simp

theorem afterClone_load_error (sys : Sys) (dbFile checksum src : String) (v : World)
    (err : Error) (hl : Config.Load sys Config.zero src = .error err) :
    Listen.afterClone sys dbFile checksum src v = (some err, v.log (Event.newConfig src)) := by
  simp [Listen.afterClone, hl]

theorem afterClone_loaded (sys : Sys) (dbFile checksum src : String) (v : World)
    (bucket : Option (Option String)) (config : Config)
    (hdb : dbFile ≠ "") (hsrc : dbFile ≠ src) (hst : v.fs dbFile = Node.boltDb bucket)
    (hl : Config.Load sys Config.zero src = .ok config) :
    (Listen.afterClone sys dbFile checksum src v).2.trace =
        v.trace ++ [Event.newConfig src,
          Event.runPipeline src config.Module config.Function config.Flags,
          Event.removeAll src]
        ++ (if sys.cmdRun (Listen.command sys src config) = none ∧ sys.removeAll src = none
            then [Event.saveChecksum dbFile checksum] else [])
    ∧ (sys.cmdRun (Listen.command sys src config) = none → sys.removeAll src = none →
        (Listen.afterClone sys dbFile checksum src v).1 = none
        ∧ (Listen.afterClone sys dbFile checksum src v).2.fs dbFile =
            Node.boltDb (some (some checksum)))
    ∧ (¬ (sys.cmdRun (Listen.command sys src config) = none ∧ sys.removeAll src = none) →
        (Listen.afterClone sys dbFile checksum src v).1 ≠ none) := by
  simp only [Listen.afterClone, hl]
  cases hr : sys.removeAll src with
  | some e => simp
  | none =>
    cases hc : sys.cmdRun (Listen.command sys src config) with
    | some e => simp
    | none =>
      simp only []
      have hs := SaveChecksum_ok dbFile checksum
        ((((v.log (Event.newConfig src)).log
          (Event.runPipeline src config.Module config.Function config.Flags)).log
          (Event.removeAll src)).put src Node.absent) hdb
        (Or.inr (Or.inr ⟨bucket, by simp [Function.update_noteq hsrc, hst]⟩))
      refine ⟨?_, fun _ _ => ⟨hs.1, ?_⟩, fun h => absurd (And.intro trivial trivial) h⟩
      · rw [hs.2.1]
        simp
      · rw [hs.2.2]
        simp

/-- C1 (amended). With a non-empty stored hash `H` and a lookup resolving to a different
`H2`, one poll cycle performs its steps in the order `os.MkdirTemp`, `Clone`, config
load, pipeline invocation, removal, `SaveChecksum`, each step at most once and only if
the steps before it allow it:
* if `os.MkdirTemp` fails, the cycle returns its error and does nothing else;
* if the directory `src` is created, there is exactly one `Clone` of `src`; if it fails,
  the cycle returns its error, with at most one clone request and with no config load
  and no pipeline invocation;
* if `Clone` succeeds (one clone request, carrying the auth `gitAuth` returns), there
  is exactly one config load on `src`; if it fails, the cycle returns its error with
  no pipeline invocation;
* if the config loads, there is exactly one pipeline invocation on `src`, with the
  module, function and flags of the configuration, followed by the removal of `src`;
* `SaveChecksum` follows, with `H2`, exactly if the invocation and the removal succeed;
  then the cycle completes and the store holds `H2`; otherwise the cycle returns an
  error. -/
theorem cycle_trigger (sys : Sys) (r : Repository) (dbFile : String) (w : World)
    (H H2 : String) (hdb : dbFile ≠ "")
    (hst : w.fs dbFile = Node.boltDb (some (some H))) (hH : H ≠ "") (hne : H2 ≠ H)
    (hck : (Checksum sys r w).1 = .ok H2) :
    (∀ err, (osMkdirTemp sys (w.log Event.gitAuth)).1 = .error err →
        Listen.cycle sys r dbFile w = (some err, w.log Event.gitAuth))
    ∧ (∀ src, (osMkdirTemp sys (w.log Event.gitAuth)).1 = .ok src →
        (∀ err, (Clone sys r src (Listen.atClone w src)).1 = some err →
          (Listen.cycle sys r dbFile w).1 = some err
          ∧ ∃ rest, (Listen.cycle sys r dbFile w).2.trace =
              w.trace ++ [Event.gitAuth, Event.mkdirTemp src, Event.clone src] ++ rest
            ∧ (rest = [] ∨ rest = [Event.gitAuth]
              ∨ ∃ auth, rest = [Event.gitAuth,
                  Event.plainClone src { Auth := auth, URL := r.URL, ReferenceName := "" }]))
        ∧ ((Clone sys r src (Listen.atClone w src)).1 = none →
          ∃ auth, (gitAuth sys r (Listen.atClone w src)).1 = .ok auth
            ∧ (∀ err, Config.Load sys Config.zero src = .error err →
                (Listen.cycle sys r dbFile w).1 = some err
                ∧ (Listen.cycle sys r dbFile w).2.trace =
                    w.trace ++ [Event.gitAuth, Event.mkdirTemp src, Event.clone src,
                      Event.gitAuth,
                      Event.plainClone src
                        { Auth := auth, URL := r.URL, ReferenceName := "" },
                      Event.newConfig src])
            ∧ (∀ config, Config.Load sys Config.zero src = .ok config →
                (Listen.cycle sys r dbFile w).2.trace =
                    w.trace ++ [Event.gitAuth, Event.mkdirTemp src, Event.clone src,
                      Event.gitAuth,
                      Event.plainClone src
                        { Auth := auth, URL := r.URL, ReferenceName := "" },
                      Event.newConfig src,
                      Event.runPipeline src config.Module config.Function config.Flags,
                      Event.removeAll src]
                    ++ (if sys.cmdRun (Listen.command sys src config) = none
                          ∧ sys.removeAll src = none
                        then [Event.saveChecksum dbFile H2] else [])
                ∧ (sys.cmdRun (Listen.command sys src config) = none →
                    sys.removeAll src = none →
                    (Listen.cycle sys r dbFile w).1 = none
                    ∧ (Listen.cycle sys r dbFile w).2.fs dbFile =
                        Node.boltDb (some (some H2)))
                ∧ (¬ (sys.cmdRun (Listen.command sys src config) = none
                      ∧ sys.removeAll src = none) →
                    (Listen.cycle sys r dbFile w).1 ≠ none)))) := by
  refine ⟨?_, ?_⟩
  · intro err hmk
    exact cycle_mkdir_fails sys r dbFile w H H2 err hdb hst hH hne hck
      (osMkdirTemp_error sys _ err hmk)
  · intro src hmk
    obtain ⟨htmp, hsrc, hfree⟩ := osMkdirTemp_ok_inv sys _ src hmk
    have hfree2 : w.fs src = Node.absent := hfree
    have hds : dbFile ≠ src := by
      intro h
      rw [h, hfree2] at hst
      cases hst
    have hcyc := cycle_triggered sys r dbFile w H H2 src hdb hst hH hne hck htmp hsrc hfree2
    obtain ⟨hcok, hcerr⟩ := Clone_trace sys r src (Listen.atClone w src)
    have hcfs := (Clone_frame sys r src (Listen.atClone w src)).1
    refine ⟨?_, ?_⟩
    · intro err hc
      obtain ⟨rest, htrace, hrest⟩ := hcerr err hc
      rw [hcyc]
      simp only [hc]
      refine ⟨trivial, rest, ?_, hrest⟩
      rw [htrace, atClone_trace]
      simp
    · intro hc
      obtain ⟨auth, hauth, htrace⟩ := hcok hc
      have hfs3 : (Clone sys r src (Listen.atClone w src)).2.fs dbFile =
          Node.boltDb (some (some H)) := by
        rw [hcfs, atClone_fs_other w src dbFile hds, hst]
      rw [hcyc]
      simp only [hc]
      refine ⟨auth, hauth, ?_, ?_⟩
      · intro err hl
        rw [afterClone_load_error sys dbFile H2 src _ err hl]
        refine ⟨rfl, ?_⟩
        rw [log_trace, htrace, atClone_trace]
        simp
      · intro config hl
        obtain ⟨h1, h2, h3⟩ := afterClone_loaded sys dbFile H2 src
          (Clone sys r src (Listen.atClone w src)).2 _ config hdb hds hfs3 hl
        refine ⟨?_, h2, h3⟩
        rw [h1, htrace, atClone_trace]
        simp

/-- C1 on the store holding `aaaaaaa` and a remote at `bbbbbbb`, every call
succeeding. -/
theorem cycle_trigger_witness :
    (Listen.cycle sysOk repoKey "/data/bolt.db" worldStored).2.trace =
        [Event.gitAuth, Event.mkdirTemp "/tmp/src1", Event.clone "/tmp/src1", Event.gitAuth,
          Event.plainClone "/tmp/src1"
            { Auth := some (AuthMethod.PublicKeys "git" "/home/ci/id_rsa"),
              URL := "git@example.com:app.git", ReferenceName := "" },
          Event.newConfig "/tmp/src1",
          Event.runPipeline "/tmp/src1" "ci" "build" ["--tag", "v1"],
          Event.removeAll "/tmp/src1", Event.saveChecksum "/data/bolt.db" "bbbbbbb"]
    ∧ (Listen.cycle sysOk repoKey "/data/bolt.db" worldStored).1 = none
    ∧ (Listen.cycle sysOk repoKey "/data/bolt.db" worldStored).2.fs "/data/bolt.db" =
        Node.boltDb (some (some "bbbbbbb")) := by
  obtain ⟨auth, hauth, _, hok⟩ :=
    ((cycle_trigger sysOk repoKey "/data/bolt.db" worldStored "aaaaaaa" "bbbbbbb"
      (by decide) rfl (by decide) (by decide) rfl).2 "/tmp/src1" rfl).2 rfl
  have ha : auth = some (AuthMethod.PublicKeys "git" "/home/ci/id_rsa") := by
    have h : (gitAuth sysOk repoKey (Listen.atClone worldStored "/tmp/src1")).1 =
        .ok (some (AuthMethod.PublicKeys "git" "/home/ci/id_rsa")) := rfl
    rw [hauth] at h
    exact Except.ok.inj h
  subst ha
  obtain ⟨h1, h2, _⟩ := hok
    { Module := "ci", Function := "build", Flags := ["--tag", "v1"], WithSource := false } rfl
  exact ⟨h1, h2 rfl rfl⟩

/-- C1 (counterexample). The store holds the non-empty `aaaaaaa` and the lookup resolves
to `bbbbbbb` in each of four cycles.  (1) The descriptor has a password and no key file:
`Clone` fails, and there is no config load and no pipeline invocation.  (2) The cloned
tree has no configuration file: the config load fails, and there is no pipeline
invocation.  (3) `os.MkdirTemp` fails: there is no `Clone`.  (4) The pipeline
invocation succeeds and the removal of the directory fails: `SaveChecksum` is not
called and the store still holds `aaaaaaa`. -/
theorem cycle_trigger_counterexample :
    worldStored.fs "/data/bolt.db" = Node.boltDb (some (some "aaaaaaa"))
    ∧ ((Checksum sysOk repoBasic worldStored).1 = .ok "bbbbbbb"
      ∧ (Listen.cycle sysOk repoBasic "/data/bolt.db" worldStored).1 =
          some "stat : no such file or directory"
      ∧ (Listen.cycle sysOk repoBasic "/data/bolt.db" worldStored).2.trace =
          [Event.gitAuth, Event.mkdirTemp "/tmp/src1", Event.clone "/tmp/src1"])
    ∧ ((Checksum sysNoConfig repoKey worldStored).1 = .ok "bbbbbbb"
      ∧ (Listen.cycle sysNoConfig repoKey "/data/bolt.db" worldStored).1 =
          some "open /tmp/src1/cacidy.yaml: no such file or directory"
      ∧ (Listen.cycle sysNoConfig repoKey "/data/bolt.db" worldStored).2.trace =
          [Event.gitAuth, Event.mkdirTemp "/tmp/src1", Event.clone "/tmp/src1",
            Event.gitAuth,
            Event.plainClone "/tmp/src1"
              { Auth := some (AuthMethod.PublicKeys "git" "/home/ci/id_rsa"),
                URL := "git@example.com:app.git", ReferenceName := "" },
            Event.newConfig "/tmp/src1"])
    ∧ ((Checksum sysNoTemp repoKey worldStored).1 = .ok "bbbbbbb"
      ∧ (Listen.cycle sysNoTemp repoKey "/data/bolt.db" worldStored).1 =
          some "mkdir /tmp/src1: no space left on device"
      ∧ (Listen.cycle sysNoTemp repoKey "/data/bolt.db" worldStored).2.trace =
          [Event.gitAuth])
    ∧ ((Checksum sysRemoveFail repoKey worldStored).1 = .ok "bbbbbbb"
      ∧ (runPipeline sysRemoveFail "/tmp/src1" "ci" "build" ["--tag", "v1"]
          worldStored).1 = none
      ∧ (Listen.cycle sysRemoveFail repoKey "/data/bolt.db" worldStored).1 =
          some "unlinkat /tmp/src1: permission denied"
      ∧ (Listen.cycle sysRemoveFail repoKey "/data/bolt.db" worldStored).2.trace =
          [Event.gitAuth, Event.mkdirTemp "/tmp/src1", Event.clone "/tmp/src1",
            Event.gitAuth,
            Event.plainClone "/tmp/src1"
              { Auth := some (AuthMethod.PublicKeys "git" "/home/ci/id_rsa"),
                URL := "git@example.com:app.git", ReferenceName := "" },
            Event.newConfig "/tmp/src1",
            Event.runPipeline "/tmp/src1" "ci" "build" ["--tag", "v1"],
            Event.removeAll "/tmp/src1"]
      ∧ (Listen.cycle sysRemoveFail repoKey "/data/bolt.db" worldStored).2.fs
          "/data/bolt.db" = Node.boltDb (some (some "aaaaaaa"))) := by
  refine ⟨rfl, ⟨rfl, ?_, ?_⟩, ⟨rfl, ?_, ?_⟩, ⟨rfl, ?_, ?_⟩, rfl, rfl, ?_, ?_, ?_⟩ <;> decide

/-- C2 (amended). With a stored hash `H` and a lookup resolving to a different `H2` (the
cycle is triggered, which takes a non-empty `H`): whenever the cycle returns an error,
`SaveChecksum` has not been called and the store still holds `H`; the error returned is
that of `Clone` if `Clone` fails, that of the config load if it fails, and, if the
pipeline invocation fails, that of the invocation when the removal of the temporary
directory succeeds and that of the removal when it fails; `Listen` returns the error
of the cycle. -/
theorem cycle_failure_not_persisted (sys : Sys) (r : Repository) (dbFile : String)
    (w : World) (H H2 : String) (hdb : dbFile ≠ "")
    (hst : w.fs dbFile = Node.boltDb (some (some H))) (hH : H ≠ "") (hne : H2 ≠ H)
    (hck : (Checksum sys r w).1 = .ok H2) :
    (∀ err, (Listen.cycle sys r dbFile w).1 = some err →
        (∃ delta, (Listen.cycle sys r dbFile w).2.trace = w.trace ++ delta
          ∧ ∀ f c, Event.saveChecksum f c ∉ delta)
        ∧ (Listen.cycle sys r dbFile w).2.fs dbFile = Node.boltDb (some (some H)))
    ∧ (∀ src, sys.tempDir = .ok src → src ≠ "" → w.fs src = Node.absent →
        (∀ err, (Clone sys r src (Listen.atClone w src)).1 = some err →
          (Listen.cycle sys r dbFile w).1 = some err)
        ∧ ((Clone sys r src (Listen.atClone w src)).1 = none →
            (∀ err, Config.Load sys Config.zero src = .error err →
              (Listen.cycle sys r dbFile w).1 = some err)
            ∧ (∀ config err, Config.Load sys Config.zero src = .ok config →
                sys.cmdRun (Listen.command sys src config) = some err →
                (sys.removeAll src = none → (Listen.cycle sys r dbFile w).1 = some err)
                ∧ (∀ err2, sys.removeAll src = some err2 →
                    (Listen.cycle sys r dbFile w).1 = some err2))))
    ∧ (∀ err cycles, (Listen.cycle sys r dbFile w).1 = some err →
        (Listen.loop r dbFile (sys :: cycles) w).1 = some err) := by
  refine ⟨?_, ?_, ?_⟩
  · intro err herr
    have hfail : ∀ e, osMkdirTemp sys (w.log Event.gitAuth) = (.error e, w.log Event.gitAuth) →
        (∃ delta, (Listen.cycle sys r dbFile w).2.trace = w.trace ++ delta
          ∧ ∀ f c, Event.saveChecksum f c ∉ delta)
        ∧ (Listen.cycle sys r dbFile w).2.fs dbFile = Node.boltDb (some (some H)) := by
      intro e hmk
      rw [cycle_mkdir_fails sys r dbFile w H H2 e hdb hst hH hne hck hmk]
      exact ⟨⟨[Event.gitAuth], rfl, by simp⟩, hst⟩
    cases htd : sys.tempDir with
    | error e => exact hfail e (by simp [osMkdirTemp, htd])
    | ok src =>
      by_cases hbad : src = "" ∨ w.fs src ≠ Node.absent
      · exact hfail "mkdirtemp: file exists" (by simp [osMkdirTemp, htd, hbad])
      · have hsrc : src ≠ "" := fun h => hbad (Or.inl h)
        have hfree : w.fs src = Node.absent := by
          by_contra h
          exact hbad (Or.inr h)
        have hds : dbFile ≠ src := by
          intro h
          rw [h, hfree] at hst
          cases hst
        have hcyc := cycle_triggered sys r dbFile w H H2 src hdb hst hH hne hck htd hsrc hfree
        obtain ⟨hcfs, cdelta, hctrace, hcdelta⟩ := Clone_frame sys r src (Listen.atClone w src)
        have hfs3 : (Clone sys r src (Listen.atClone w src)).2.fs dbFile =
            Node.boltDb (some (some H)) := by
          rw [hcfs, atClone_fs_other w src dbFile hds, hst]
        have hnosave : ∀ f c, Event.saveChecksum f c ∉ cdelta := by
          intro f c hmem
          rcases hcdelta _ hmem with h | h | ⟨o, h⟩ <;> cases h
        rw [hcyc] at herr ⊢
        cases hc : (Clone sys r src (Listen.atClone w src)).1 with
        | some e =>
          simp only [hc]
          refine ⟨⟨[Event.gitAuth, Event.mkdirTemp src] ++ cdelta, ?_, ?_⟩, hfs3⟩
          · rw [hctrace, atClone_trace]
            simp
          · intro f c hmem
            simp at hmem
            exact hnosave f c hmem
        | none =>
          rw [hc] at herr
          simp only [hc] at herr ⊢
          obtain ⟨⟨delta, htrace, hdelta⟩, hfs⟩ := afterClone_error sys dbFile H2 src
            (Clone sys r src (Listen.atClone w src)).2 _ hdb hds hfs3 err herr
          refine ⟨⟨[Event.gitAuth, Event.mkdirTemp src] ++ cdelta ++ delta, ?_, ?_⟩, hfs⟩
          · rw [htrace, hctrace, atClone_trace]
            simp
          · intro f c hmem
            simp at hmem
            rcases hmem with h | h
            · exact hnosave f c h
            · exact hdelta f c h
  · intro src htmp hsrc hfree
    have hcyc := cycle_triggered sys r dbFile w H H2 src hdb hst hH hne hck htmp hsrc hfree
    rw [hcyc]
    refine ⟨?_, ?_⟩
    · intro err hc
      simp only [hc]
    · intro hc
      simp only [hc, Listen.afterClone]
      refine ⟨?_, ?_⟩
      · intro err hl
        simp only [hl]
      · intro config err hl hrun
        simp only [hl, hrun]
        refine ⟨?_, ?_⟩
        · intro hr
          simp only [hr]
        · intro err2 hr
          simp only [hr]
  · intro err cycles herr
    unfold Listen.loop
    rcases hres : Listen.cycle sys r dbFile w with ⟨e, w2⟩
    rw [hres] at herr
    simp only [] at herr
    subst herr
    rfl

/-- C2 on a remote that cannot be cloned for lack of a key file: the error of `Clone`
is returned, nothing is saved, the store still holds `aaaaaaa`. -/
theorem cycle_failure_not_persisted_witness :
    (Listen.cycle sysOk repoBasic "/data/bolt.db" worldStored).1 =
        some "stat : no such file or directory"
    ∧ (∃ delta, (Listen.cycle sysOk repoBasic "/data/bolt.db" worldStored).2.trace =
          worldStored.trace ++ delta ∧ ∀ f c, Event.saveChecksum f c ∉ delta)
    ∧ (Listen.cycle sysOk repoBasic "/data/bolt.db" worldStored).2.fs "/data/bolt.db" =
        Node.boltDb (some (some "aaaaaaa")) :=
  have h := cycle_failure_not_persisted sysOk repoBasic "/data/bolt.db" worldStored
    "aaaaaaa" "bbbbbbb" (by decide) rfl (by decide) (by decide) rfl
  have h1 := (h.2.1 "/tmp/src1" rfl (by decide) rfl).1 "stat : no such file or directory" rfl
  ⟨h1, h.1 _ h1⟩

/-- C2 (counterexample). The store holds `aaaaaaa`, the lookup resolves to `bbbbbbb`,
the pipeline invocation fails with `exit status 1` and the removal of the temporary
directory fails as well: the cycle returns the error of the removal, not that of the
invocation. -/
theorem cycle_failure_counterexample :
    worldStored.fs "/data/bolt.db" = Node.boltDb (some (some "aaaaaaa"))
    ∧ (Checksum sysRunRemoveFail repoKey worldStored).1 = .ok "bbbbbbb"
    ∧ (runPipeline sysRunRemoveFail "/tmp/src1" "ci" "build" ["--tag", "v1"] worldStored).1 = some "exit status 1"
    ∧ (Listen.cycle sysRunRemoveFail repoKey "/data/bolt.db" worldStored).2.trace =
        [Event.gitAuth, Event.mkdirTemp "/tmp/src1", Event.clone "/tmp/src1", Event.gitAuth,
          Event.plainClone "/tmp/src1"
            { Auth := some (AuthMethod.PublicKeys "git" "/home/ci/id_rsa"),
              URL := "git@example.com:app.git", ReferenceName := "" },
          Event.newConfig "/tmp/src1", Event.runPipeline "/tmp/src1" "ci" "build" ["--tag", "v1"],
          Event.removeAll "/tmp/src1"]
    ∧ (Listen.cycle sysRunRemoveFail repoKey "/data/bolt.db" worldStored).1 =
        some "unlinkat /tmp/src1: permission denied"
    ∧ (Listen.cycle sysRunRemoveFail repoKey "/data/bolt.db" worldStored).1 ≠
        some "exit status 1" := by
  refine ⟨rfl, rfl, rfl, ?_, ?_, ?_⟩ <;> decide

/-- C5 (the code at failing inputs). In a triggered cycle whose config load fails, and
in one whose `Clone` fails, the cycle returns the error with the temporary directory
still in place and without a call of `os.RemoveAll`. -/
theorem cycle_leaves_temp_dir :
    ((Listen.cycle sysNoConfig repoKey "/data/bolt.db" worldStored).1 =
        some "open /tmp/src1/cacidy.yaml: no such file or directory"
      ∧ (Listen.cycle sysNoConfig repoKey "/data/bolt.db" worldStored).2.trace =
        [Event.gitAuth, Event.mkdirTemp "/tmp/src1", Event.clone "/tmp/src1", Event.gitAuth,
          Event.plainClone "/tmp/src1"
            { Auth := some (AuthMethod.PublicKeys "git" "/home/ci/id_rsa"),
              URL := "git@example.com:app.git", ReferenceName := "" },
          Event.newConfig "/tmp/src1"]
      ∧ worldStored.fs "/tmp/src1" = Node.absent
      ∧ (Listen.cycle sysNoConfig repoKey "/data/bolt.db" worldStored).2.fs "/tmp/src1" =
        Node.dir)
    ∧ ((Listen.cycle sysOk repoBasic "/data/bolt.db" worldStored).1 =
        some "stat : no such file or directory"
      ∧ (Listen.cycle sysOk repoBasic "/data/bolt.db" worldStored).2.trace =
        [Event.gitAuth, Event.mkdirTemp "/tmp/src1", Event.clone "/tmp/src1"]
      ∧ (Listen.cycle sysOk repoBasic "/data/bolt.db" worldStored).2.fs "/tmp/src1" =
        Node.dir) := by
  refine ⟨⟨?_, ?_, ?_, ?_⟩, ?_, ?_, ?_⟩ <;> decide

end runner
